import Mathlib

namespace PreferTRegex

/-- Espree-style AST node, as read by the rule `prefer-t-regex`.  Each node
carries a `type` tag, an identifier `name`, a `regex` marker (present exactly
on regex literals), the `raw` source text of literals, and the kind-specific
children the rule accesses (`callee`, `arguments`, `object`, `property`,
`init`).  A property that is absent on a given JavaScript object is modelled
as `none` (resp. `false`, `[]`).  Reading a property of an absent object is
modelled by `Option.bind`. -/
inductive Node where
  | mk
      (type : Option String)
      (name : Option String)
      (regex : Bool)
      (raw : Option String)
      (callee : Option Node)
      (arguments : Option (List Node))
      (object : Option Node)
      (property : Option Node)
      (init : Option Node)

/-- Projection: `node.type`. -/
def Node.type : Node → Option String
  | mk t _ _ _ _ _ _ _ _ => t

/-- Projection: `node.name`. -/
def Node.name : Node → Option String
  | mk _ n _ _ _ _ _ _ _ => n

/-- Projection: `node.regex` (truthiness of the regex-literal marker). -/
def Node.regex : Node → Bool
  | mk _ _ r _ _ _ _ _ _ => r

/-- Projection: `node.raw`. -/
def Node.raw : Node → Option String
  | mk _ _ _ w _ _ _ _ _ => w

/-- Projection: `node.callee`. -/
def Node.callee : Node → Option Node
  | mk _ _ _ _ c _ _ _ _ => c

/-- Projection: `node.arguments`.  The property is present (an array node
list, possibly empty) exactly on call and construction expressions; reading
an index of the absent property throws a TypeError in JavaScript, which the
handlers model explicitly. -/
def Node.arguments : Node → Option (List Node)
  | mk _ _ _ _ _ a _ _ _ => a

/-- Projection: `node.object`. -/
def Node.object : Node → Option Node
  | mk _ _ _ _ _ _ o _ _ => o

/-- Projection: `node.property`. -/
def Node.property : Node → Option Node
  | mk _ _ _ _ _ _ _ p _ => p

/-- Projection: `node.init`. -/
def Node.init : Node → Option Node
  | mk _ _ _ _ _ _ _ _ i => i

mutual

/-- Structural equality on nodes, used to model JavaScript object identity of
the `.regex` objects compared by `===` in `equalityHandler` (two occurrences
of a node are the same JavaScript object exactly when they are the same node
of the tree). -/
def Node.beq : Node → Node → Bool
  | mk t1 n1 r1 w1 c1 a1 o1 p1 i1, mk t2 n2 r2 w2 c2 a2 o2 p2 i2 =>
    t1 == t2 && n1 == n2 && r1 == r2 && w1 == w2
      && Node.beqOpt c1 c2 && Node.beqOptList a1 a2 && Node.beqOpt o1 o2
      && Node.beqOpt p1 p2 && Node.beqOpt i1 i2

/-- Structural equality on optional nodes. -/
def Node.beqOpt : Option Node → Option Node → Bool
  | none, none => true
  | some x, some y => Node.beq x y
  | _, _ => false

/-- Structural equality on node lists. -/
def Node.beqList : List Node → List Node → Bool
  | [], [] => true
  | x :: xs, y :: ys => Node.beq x y && Node.beqList xs ys
  | _, _ => false

/-- Structural equality on optional node lists. -/
def Node.beqOptList : Option (List Node) → Option (List Node) → Bool
  | none, none => true
  | some xs, some ys => Node.beqList xs ys
  | _, _ => false

end

/-- A scope-analysis `Definition`: pairs a declaration with its node (the
declarator, whose `init` is the initializer expression). -/
structure Definition where
  node : Node

/-- A resolved scope variable: `reference.resolved`, carrying `defs`. -/
structure Variable where
  defs : List Definition

/-- A scope `Reference`: an identifier occurrence, possibly resolved. -/
structure Reference where
  identifier : Node
  resolved : Option Variable

/-- A lexical `Scope` as surfaced by `sourceCode.getScope`. -/
structure Scope where
  references : List Reference

/-- The host's scope query `sourceCode.getScope`, supplied per node. -/
abbrev GetScope := Node → Scope

/-- Embedding of `findReference` (src/rules/prefer-t-regex.js lines 23 to
36): find the first reference in the node's scope whose identifier name
matches, and if it resolved to a variable with at least one definition,
return the last definition's node. -/
def findReference (getScope : GetScope) (node : Node) : Option Node :=
  match (getScope node).references.find? (fun reference => reference.identifier.name == node.name) with
  | none => none
  | some reference =>
    match reference.resolved with
    | none => none
    | some resolved =>
      if resolved.defs.length == 0 then
        none
      else
        (resolved.defs.getLast?).map Definition.node

/-- Embedding of `findRootReference` (src/rules/prefer-t-regex.js lines 54 to
78), made total with a `fuel` bound on recursion depth: the outer `none`
means the recursion exceeded `fuel` steps, `some none` is the JavaScript
return value `undefined`, and `some (some n)` is a returned node. -/
def findRootReferenceFuel (getScope : GetScope) (fuel : Nat) (start : Option Node) : Option (Option Node) :=
  match start with
  | none => some none
  | some node =>
    match fuel with
    | 0 => none
    | fuel + 1 =>
      if node.type == some "Identifier" then
        match (findReference getScope node).bind Node.init with
        | some init => findRootReferenceFuel getScope fuel (some init)
        | none => some (some node)
      else if node.type == some "CallExpression" || node.type == some "NewExpression" then
        findRootReferenceFuel getScope fuel node.callee
      else if node.type == some "MemberExpression" then
        findRootReferenceFuel getScope fuel node.object
      else
        some (some node)

/-- The JavaScript value returned by `isRegExp`: either a boolean, or (from
`return reference.regex ?? ...` when the traced origin carries a `regex`
property) the origin's truthy `.regex` object, tagged with its origin node. -/
inductive RegexVerdict where
  | ofBool (b : Bool)
  | ofRegexObject (origin : Node)

/-- JavaScript truthiness of an `isRegExp` result. -/
def RegexVerdict.truthy : RegexVerdict → Bool
  | ofBool b => b
  | ofRegexObject _ => true

/-- JavaScript strict equality `===` between two `isRegExp` results: booleans
compare by value, `.regex` objects by identity (modelled structurally), and a
boolean is never strictly equal to an object. -/
def RegexVerdict.strictEq : RegexVerdict → RegexVerdict → Bool
  | ofBool a, ofBool b => a == b
  | ofRegexObject x, ofRegexObject y => Node.beq x y
  | _, _ => false

/-- Embedding of `isRegExp` (src/rules/prefer-t-regex.js lines 87 to 104).
`none` propagates fuel exhaustion of the origin trace; otherwise the
JavaScript return value is `some` verdict: `false` for an absent argument,
`true` when the argument itself carries regex-literal syntax, `false` when
the trace returns `undefined`, and otherwise `reference.regex ?? (reference.name
=== RegExp)`. -/
def isRegExp (getScope : GetScope) (fuel : Nat) (lookup : Option Node) : Option RegexVerdict :=
  match lookup with
  | none => some (.ofBool false)
  | some lookup =>
    if lookup.regex then
      some (.ofBool true)
    else
      match findRootReferenceFuel getScope fuel (some lookup) with
      | none => none
      | some none => some (.ofBool false)
      | some (some reference) =>
        if reference.regex then
          some (.ofRegexObject reference)
        else
          some (.ofBool (reference.name == some "RegExp"))

/-- The regex classifier viewed as a boolean predicate (the truthiness of the
JavaScript value `isRegExp` returns, which is how every call site consumes
it). -/
def isRegExpBool (getScope : GetScope) (fuel : Nat) (lookup : Option Node) : Option Bool :=
  (isRegExp getScope fuel lookup).map RegexVerdict.truthy

/-- The host's source-text accessor `sourceCode.getText`; ESLint accepts an
absent argument (returning the whole file text), so the domain is
`Option Node`. -/
abbrev GetText := Option Node → String

/-- The empty object literal used for `let lookup = \x7b\x7d; let variable = \x7b\x7d;`
in `booleanHandler`: a JavaScript object with none of the node properties. -/
def emptyObject : Node :=
  .mk none none false none none none none none none

/-- A reported finding: the message and the fix, the latter as the ordered
list of `fixer.replaceText(target, text)` edits the fix callback produces. -/
structure Finding where
  message : String
  fix : List (Option Node × String)

/-- A handler invocation's outcome.  `outOfFuel` is the embedding's bound on
the (divergent) origin trace; `thrown` means a TypeError escaped (ESLint
normalizes the fix callback eagerly inside `context.report`, so a throw
there aborts the report and no finding is emitted); `noReport` means the
handler returned without reporting; `reported f` means the finding `f` was
reported. -/
inductive HandlerResult where
  | outOfFuel
  | thrown
  | noReport
  | reported (f : Finding)

/-- Embedding of `booleanHandler` (src/rules/prefer-t-regex.js lines 106 to
151).  Indexing `node.arguments[0]` (line 107) and
`firstArgument.arguments[0]` (lines 125 and 128) throws when the
`arguments` property is absent; on present properties an out-of-range index
is simply `undefined`. -/
def booleanHandler (getScope : GetScope) (getText : GetText) (fuel : Nat) (node : Node) : HandlerResult :=
  match node.arguments with
  | none => .thrown
  | some nodeArguments =>
    match nodeArguments.head? with
    | none => .noReport
    | some firstArgument =>
      let isFunctionCall := firstArgument.type == some "CallExpression"
      if !isFunctionCall || (firstArgument.callee.bind Node.property).isNone then
        .noReport
      else
        let name := (firstArgument.callee.bind Node.property).bind Node.name
        let lookupVariable : Option (Option Node × Option Node) :=
          if name == some "test" then
            match firstArgument.arguments with
            | none => none
            | some innerArguments =>
              some (firstArgument.callee.bind Node.object, innerArguments.head?)
          else if name == some "search" || name == some "match" then
            match firstArgument.arguments with
            | none => none
            | some innerArguments =>
              some (innerArguments.head?, firstArgument.callee.bind Node.object)
          else
            some (some emptyObject, some emptyObject)
        match lookupVariable with
        | none => .thrown
        | some lookupVariable =>
          match isRegExp getScope fuel lookupVariable.1 with
          | none => .outOfFuel
          | some verdict =>
            if !verdict.truthy then
              .noReport
            else
              let assertion :=
                if (node.callee.bind Node.property).bind Node.name == some "true"
                    || (node.callee.bind Node.property).bind Node.name == some "truthy" then
                  "regex"
                else
                  "notRegex"
              .reported
                { message := "Prefer using the `t." ++ assertion ++ "()` assertion."
                  fix :=
                    [ (node.callee.bind Node.property, assertion)
                    , (some firstArgument, getText lookupVariable.2 ++ ", " ++ getText lookupVariable.1) ] }

/-- The fix built by `booleanFixer` in `equalityHandler`, evaluated eagerly
inside `context.report`: rename the assertion property, replace the first
argument with the text of `regex.arguments[0]`, and the second with the
text of `regex.callee.object`.  When the regex side has no `arguments`
property, `regex.arguments[0]` throws a TypeError; likewise
`regex.callee.object` throws when `callee` is absent.  `none` is that
throw; no finding is produced then. -/
def equalityFix (getText : GetText) (node : Node) (firstArgument secondArgument : Option Node) (regexNode : Node) (assertion : String) : Option Finding :=
  match regexNode.arguments with
  | none => none
  | some regexArguments =>
    match regexNode.callee with
    | none => none
    | some regexCallee =>
      some
        { message := "Prefer using the `t." ++ assertion ++ "()` assertion."
          fix :=
            [ (node.callee.bind Node.property, assertion)
            , (firstArgument, getText regexArguments.head?)
            , (secondArgument, getText regexCallee.object) ] }

/-- Embedding of `equalityHandler` (src/rules/prefer-t-regex.js lines 153 to
199).  Destructuring `node.arguments` throws when the property is absent.
The guard `firstArgumentIsRegex === secondArgumentIsRegex` is JavaScript
strict equality of the two classifier values, and the two conditionals on
the classifier values are their truthiness.  A throw inside the eager fix
normalization of `context.report` aborts the report. -/
def equalityHandler (getScope : GetScope) (getText : GetText) (fuel : Nat) (node : Node) : HandlerResult :=
  match node.arguments with
  | none => .thrown
  | some nodeArguments =>
    let firstArgument := nodeArguments.head?
    let secondArgument := nodeArguments[1]?
    match isRegExp getScope fuel firstArgument, isRegExp getScope fuel secondArgument with
    | some firstArgumentIsRegex, some secondArgumentIsRegex =>
      if firstArgumentIsRegex.strictEq secondArgumentIsRegex then
        .noReport
      else
        let matchee := if secondArgumentIsRegex.truthy then firstArgument else secondArgument
        match matchee with
        | none => .noReport
        | some matchee =>
          let regex := if secondArgumentIsRegex.truthy then secondArgument else firstArgument
          match regex with
          | none => .noReport
          | some regexNode =>
            if matchee.type == some "Literal" then
              if matchee.raw == some "true" then
                match equalityFix getText node firstArgument secondArgument regexNode "regex" with
                | none => .thrown
                | some f => .reported f
              else if matchee.raw == some "false" then
                match equalityFix getText node firstArgument secondArgument regexNode "notRegex" with
                | none => .thrown
                | some f => .reported f
              else
                .noReport
            else
              .noReport
    | _, _ => .outOfFuel

/-- Input constructor: an identifier node with the given name. -/
def identNode (s : String) : Node :=
  .mk (some "Identifier") (some s) false none none none none none none

/-- Input constructor: a plain (non-regex) literal node with the given raw
source text. -/
def literalNode (raw : String) : Node :=
  .mk (some "Literal") none false (some raw) none none none none none

/-- Input constructor: a regex literal node with the given raw source text;
in espree such a node has type `Literal` and carries the `regex` marker (and
no `arguments` or `callee` property). -/
def regexLiteral (raw : String) : Node :=
  .mk (some "Literal") none true (some raw) none none none none none

/-- Input constructor: the member access `obj.prop`. -/
def memberNode (obj prop : Node) : Node :=
  .mk (some "MemberExpression") none false none none none (some obj) (some prop) none

/-- Input constructor: the call `callee(args)`; a call expression carries a
real (possibly empty) `arguments` array. -/
def callNode (callee : Node) (args : List Node) : Node :=
  .mk (some "CallExpression") none false none (some callee) (some args) none none none

/-- Input constructor: the assertion call `t.assertName(args)`. -/
def tAssert (assertName : String) (args : List Node) : Node :=
  callNode (memberNode (identNode "t") (identNode assertName)) args

/-- Input constructor: the method call `obj.methodName(args)`. -/
def methodCall (obj : Node) (methodName : String) (args : List Node) : Node :=
  callNode (memberNode obj (identNode methodName)) args

/-- The assertion name the boolean handler rewrites to: `regex` for
`t.true`/`t.truthy`, `notRegex` for the others. -/
def boolAssertTarget (assertName : String) : String :=
  if assertName == "true" || assertName == "truthy" then "regex" else "notRegex"

/-- A scope environment with no references anywhere: every identifier is
unresolved. -/
def emptyScopes : GetScope := fun _ => ⟨[]⟩

/-- A degenerate source-text accessor for concrete witnesses. -/
def noText : GetText := fun _ => ""

/-- Tracing a node whose type is `Literal` immediately hits the base case. -/
theorem literal_trace (getScope : GetScope) (fuel : Nat) (n : Node)
    (ht : n.type = some "Literal") :
    findRootReferenceFuel getScope (fuel + 1) (some n) = some (some n) := by
  simp [findRootReferenceFuel, ht]

/-- A falsy classifier verdict is the boolean `false`. -/
theorem RegexVerdict.eq_ofBool_false (v : RegexVerdict) (h : v.truthy = false) :
    v = .ofBool false := by
  cases v with
  | ofBool b => simp [RegexVerdict.truthy] at h; simp [h]
  | ofRegexObject o => simp [RegexVerdict.truthy] at h

/-- A literal node without regex marker and without a name always classifies
as the boolean `false` (its traced origin is itself, it carries no regex
syntax, and it is not named `RegExp`). -/
theorem literal_classifies_ofBool_false (getScope : GetScope) (fuel : Nat) (a : Node)
    (v : RegexVerdict) (hL : a.type = some "Literal") (hreg : a.regex = false)
    (hname : a.name = none) (hv : isRegExp getScope fuel (some a) = some v) :
    v = .ofBool false := by
  cases fuel with
  | zero =>
    rw [isRegExp] at hv
    simp [hreg, findRootReferenceFuel] at hv
  | succ k =>
    rw [isRegExp] at hv
    simp [hreg, literal_trace getScope k a hL, hname] at hv
    exact hv.symm

/-- The scope environment of the JavaScript program `var x = x;`: the
identifier `x` resolves to the variable declarator `x = x`, whose
initializer is the identifier `x` again. -/
def xIdent : Node := identNode "x"

/-- The declarator node of `var x = x;`. -/
def xDecl : Node := Node.mk (some "VariableDeclarator") none false none none none none none (some xIdent)

/-- The `getScope` answer the host computes for `var x = x;`: a single
reference named `x`, resolved to one definition whose node is the declarator
`x = x`. -/
def selfRefScopes : GetScope := fun _ => ⟨[⟨xIdent, some ⟨[⟨xDecl⟩]⟩⟩]⟩

/-- C2: refuted on the code.  For the program `var x = x;` the origin trace
of the identifier `x` resolves to the declarator `x = x` and recurses into
its initializer, which is the identifier `x` again: the recursion exceeds
every depth bound, i.e. `findRootReference` does not terminate, contrary to
the claim that tracing an identifier whose resolved definition's initializer
mentions the same identifier still terminates. -/
theorem findRootReference_diverges_on_self_referential_var :
    ∀ fuel : Nat, findRootReferenceFuel selfRefScopes fuel (some xIdent) = none := by
  intro fuel
  induction fuel with
  | zero => rfl
  | succ n ih => exact ih

/-- C9: the origin tracer follows the kind-directed algorithm.  With one
unit of fuel unfolded: an identifier whose resolution yields a definition
with an initializer recurses into the initializer; an identifier without
such an initializer (including resolution failure) is returned itself; a
call or construction expression recurses into its callee; a member access
recurses into its object; every other kind is returned unchanged. -/
theorem findRootReference_step_cases (getScope : GetScope) (fuel : Nat) (node : Node) :
    (node.type = some "Identifier" →
      ∀ init : Node, (findReference getScope node).bind Node.init = some init →
        findRootReferenceFuel getScope (fuel + 1) (some node) =
          findRootReferenceFuel getScope fuel (some init)) ∧
    (node.type = some "Identifier" →
      (findReference getScope node).bind Node.init = none →
        findRootReferenceFuel getScope (fuel + 1) (some node) = some (some node)) ∧
    (node.type = some "CallExpression" ∨ node.type = some "NewExpression" →
      findRootReferenceFuel getScope (fuel + 1) (some node) =
        findRootReferenceFuel getScope fuel node.callee) ∧
    (node.type = some "MemberExpression" →
      findRootReferenceFuel getScope (fuel + 1) (some node) =
        findRootReferenceFuel getScope fuel node.object) ∧
    (node.type ≠ some "Identifier" → node.type ≠ some "CallExpression" →
      node.type ≠ some "NewExpression" → node.type ≠ some "MemberExpression" →
      findRootReferenceFuel getScope (fuel + 1) (some node) = some (some node)) := by
  refine ⟨?_, ?_, ?_, ?_, ?_⟩
  · intro hid init hinit
    simp [findRootReferenceFuel, hid, hinit]
  · intro hid hinit
    simp [findRootReferenceFuel, hid, hinit]
  · intro hc
    rcases hc with hc | hc <;> simp [findRootReferenceFuel, hc]
  · intro hm
    simp [findRootReferenceFuel, hm]
  · intro h1 h2 h3 h4
    simp [findRootReferenceFuel, beq_eq_false_iff_ne, h1, h2, h3, h4]

/-- Witness for the C9 theorem at a concrete input: the call `a.m()` steps
into its callee `a.m`. -/
theorem findRootReference_step_cases_witness :
    findRootReferenceFuel emptyScopes 1 (some (methodCall (identNode "a") "m" [])) =
      findRootReferenceFuel emptyScopes 0 (methodCall (identNode "a") "m" []).callee :=
  (findRootReference_step_cases emptyScopes 0 (methodCall (identNode "a") "m" [])).2.2.1
    (Or.inl rfl)

/-- C10: when an identifier resolves to a reference whose variable carries at
least one definition, `findReference` returns the node of the last
definition in the list (`definitions.at(-1).node`), not the first. -/
theorem findReference_uses_last_definition (getScope : GetScope) (node : Node)
    (reference : Reference) (resolved : Variable)
    (hfind : (getScope node).references.find?
        (fun r => r.identifier.name == node.name) = some reference)
    (hres : reference.resolved = some resolved)
    (hne : resolved.defs ≠ []) :
    findReference getScope node = (resolved.defs.getLast?).map Definition.node := by
  have hlen : (resolved.defs.length == 0) = false := by
    simp [List.length_eq_zero, hne]
  simp [findReference, hfind, hres, hlen]

/-- Witness for the C10 theorem: with two definitions for `r` (as after
`var r = .. ; var r = ..`), the second definition's node is returned. -/
theorem findReference_uses_last_definition_witness :
    findReference
        (fun _ => ⟨[⟨identNode "r", some ⟨[⟨identNode "firstDecl"⟩, ⟨identNode "secondDecl"⟩]⟩⟩]⟩)
        (identNode "r") =
      some (identNode "secondDecl") :=
  (findReference_uses_last_definition
      (fun _ => ⟨[⟨identNode "r", some ⟨[⟨identNode "firstDecl"⟩, ⟨identNode "secondDecl"⟩]⟩⟩]⟩)
      (identNode "r")
      ⟨identNode "r", some ⟨[⟨identNode "firstDecl"⟩, ⟨identNode "secondDecl"⟩]⟩⟩
      ⟨[⟨identNode "firstDecl"⟩, ⟨identNode "secondDecl"⟩]⟩
      rfl rfl (by simp)).trans rfl

/-- C8: the regex classifier, viewed as a boolean predicate: `false` for an
absent node; `true` for a node carrying regex-literal syntax; otherwise,
when the origin trace completes, `true` exactly when the traced origin
exists and either carries regex-literal syntax or is named `RegExp`, and
`false` in every other case. -/
theorem isRegExp_characterization (getScope : GetScope) (fuel : Nat) :
    isRegExpBool getScope fuel none = some false ∧
    (∀ l : Node, l.regex = true → isRegExpBool getScope fuel (some l) = some true) ∧
    (∀ l : Node, l.regex = false →
      ∀ res : Option Node, findRootReferenceFuel getScope fuel (some l) = some res →
        isRegExpBool getScope fuel (some l) =
          some (match res with
                | none => false
                | some origin => origin.regex || origin.name == some "RegExp")) := by
  refine ⟨rfl, ?_, ?_⟩
  · intro l hreg
    simp [isRegExpBool, isRegExp, hreg, RegexVerdict.truthy]
  · intro l hreg res hres
    cases res with
    | none => simp [isRegExpBool, isRegExp, hreg, hres, RegexVerdict.truthy]
    | some origin =>
      by_cases ho : origin.regex = true
      · simp [isRegExpBool, isRegExp, hreg, hres, ho, RegexVerdict.truthy]
      · simp only [Bool.not_eq_true] at ho
        simp [isRegExpBool, isRegExp, hreg, hres, ho, RegexVerdict.truthy]

/-- Witness for the C8 theorem: a bare identifier named `RegExp` traces to
itself and classifies as regex. -/
theorem isRegExp_characterization_witness :
    isRegExpBool emptyScopes 1 (some (identNode "RegExp")) = some true := by
  have h := (isRegExp_characterization emptyScopes 1).2.2 (identNode "RegExp") rfl
    (some (identNode "RegExp")) rfl
  simpa using h

/-- C4: for `t.<assertName>(r.test(s))` with `assertName` one of the four
boolean assertions and `r` classifying as regex, the handler reports a
finding whose fix renames the assertion property to `regex`
(for `true`/`truthy`) or `notRegex` (for `false`/`falsy`) and replaces the
inner call's text with the text of `s` followed by the text of `r`. -/
theorem boolean_test_shape_fix (getScope : GetScope) (getText : GetText) (fuel : Nat)
    (r s : Node) (assertName : String)
    (hr : isRegExpBool getScope fuel (some r) = some true)
    (hbn : assertName = "true" ∨ assertName = "truthy"
        ∨ assertName = "false" ∨ assertName = "falsy") :
    booleanHandler getScope getText fuel (tAssert assertName [methodCall r "test" [s]]) =
      .reported
        { message := "Prefer using the `t." ++ boolAssertTarget assertName ++ "()` assertion."
          fix :=
            [ (some (identNode assertName), boolAssertTarget assertName)
            , (some (methodCall r "test" [s]), getText (some s) ++ ", " ++ getText (some r)) ] } := by
  simp only [isRegExpBool] at hr
  obtain ⟨v, hv, htr⟩ := Option.map_eq_some'.mp hr
  rcases hbn with rfl | rfl | rfl | rfl <;>
    simp [booleanHandler, tAssert, methodCall, callNode, memberNode, identNode,
      Node.arguments, Node.type, Node.callee, Node.property, Node.name, Node.object,
      hv, htr, boolAssertTarget]

/-- Witness for the C4 theorem: `t.true(/a/.test(s))` is rewritten to the
`regex` assertion over `s, /a/`. -/
theorem boolean_test_shape_fix_witness :
    booleanHandler emptyScopes noText 0 (tAssert "true" [methodCall (regexLiteral "/a/") "test" [identNode "s"]]) =
      .reported
        { message := "Prefer using the `t." ++ boolAssertTarget "true" ++ "()` assertion."
          fix :=
            [ (some (identNode "true"), boolAssertTarget "true")
            , (some (methodCall (regexLiteral "/a/") "test" [identNode "s"]),
                noText (some (identNode "s")) ++ ", " ++ noText (some (regexLiteral "/a/"))) ] } :=
  boolean_test_shape_fix emptyScopes noText 0 (regexLiteral "/a/") (identNode "s") "true"
    rfl (Or.inl rfl)

/-- C5: for `t.true(s.match(r))` and `t.true(s.search(r))` with `r`
classifying as regex, the argument roles are swapped relative to `.test`:
the call argument `r` is the candidate regex, the callee object `s` the
subject, and the fix text is the text of `s` followed by the text of `r`. -/
theorem boolean_match_search_swapped_fix (getScope : GetScope) (getText : GetText)
    (fuel : Nat) (r s : Node) (m : String)
    (hm : m = "match" ∨ m = "search")
    (hr : isRegExpBool getScope fuel (some r) = some true) :
    booleanHandler getScope getText fuel (tAssert "true" [methodCall s m [r]]) =
      .reported
        { message := "Prefer using the `t.regex()` assertion."
          fix :=
            [ (some (identNode "true"), "regex")
            , (some (methodCall s m [r]), getText (some s) ++ ", " ++ getText (some r)) ] } := by
  simp only [isRegExpBool] at hr
  obtain ⟨v, hv, htr⟩ := Option.map_eq_some'.mp hr
  rcases hm with rfl | rfl <;>
    simp [booleanHandler, tAssert, methodCall, callNode, memberNode, identNode,
      Node.arguments, Node.type, Node.callee, Node.property, Node.name, Node.object,
      hv, htr]

/-- Witness for the C5 theorem: `t.true(s.match(/a/))` is rewritten to the
`regex` assertion over `s, /a/`. -/
theorem boolean_match_search_swapped_fix_witness :
    booleanHandler emptyScopes noText 0 (tAssert "true" [methodCall (identNode "s") "match" [regexLiteral "/a/"]]) =
      .reported
        { message := "Prefer using the `t.regex()` assertion."
          fix :=
            [ (some (identNode "true"), "regex")
            , (some (methodCall (identNode "s") "match" [regexLiteral "/a/"]),
                noText (some (identNode "s")) ++ ", " ++ noText (some (regexLiteral "/a/"))) ] } :=
  boolean_match_search_swapped_fix emptyScopes noText 0 (regexLiteral "/a/") (identNode "s")
    "match" (Or.inl rfl) rfl

/-- C6: a boolean assertion over an inner method call whose method name is
none of `test`, `match`, `search` never yields a finding: the lookup stays
the uninitialized empty object, which does not classify as regex. -/
theorem boolean_other_method_no_finding (getScope : GetScope) (getText : GetText)
    (fuel : Nat) (hfuel : 1 ≤ fuel) (x y : Node) (assertName m : String)
    (hm1 : m ≠ "test") (hm2 : m ≠ "match") (hm3 : m ≠ "search") :
    booleanHandler getScope getText fuel (tAssert assertName [methodCall x m [y]]) =
      .noReport := by
  cases fuel with
  | zero => exact absurd hfuel (by simp)
  | succ k =>
    have hlook : isRegExp getScope (k + 1) (some emptyObject) = some (.ofBool false) := rfl
    simp [booleanHandler, tAssert, methodCall, callNode, memberNode, identNode,
      Node.arguments, Node.type, Node.callee, Node.property, Node.name, Node.object,
      hm1, hm2, hm3, hlook, RegexVerdict.truthy]

/-- Witness for the C6 theorem: `t.true(x.exec(y))` yields no finding. -/
theorem boolean_other_method_no_finding_witness :
    booleanHandler emptyScopes noText 1 (tAssert "true" [methodCall (identNode "x") "exec" [identNode "y"]]) =
      .noReport :=
  boolean_other_method_no_finding emptyScopes noText 1 (by decide) (identNode "x")
    (identNode "y") "true" "exec" (by decide) (by decide) (by decide)

/-- C3: refuted on the code.  For `t.true(/x/.test())` the inner regex-test
call carries a real empty `arguments` array (so indexing it is `undefined`,
not a throw), yet the boolean handler still reports a finding (whose fix
interpolates the text of the absent argument node): the missing inner
argument is not guarded. -/
theorem boolean_reports_on_missing_test_argument :
    (callNode (memberNode (regexLiteral "/x/") (identNode "test")) []).arguments = some [] ∧
    (∃ f : Finding,
      booleanHandler emptyScopes noText 0
          (tAssert "true" [callNode (memberNode (regexLiteral "/x/") (identNode "test")) []]) =
        .reported f) :=
  ⟨rfl, ⟨_, rfl⟩⟩

/-- C3 amended: an assertion call with zero arguments (a present, empty
`arguments` array) is rejected by both handlers, and a first argument that
is a call whose callee has no property is rejected by the boolean handler;
but (per the counterexample) a missing inner regex-test argument does not
prevent a finding. -/
theorem malformed_child_guards (getScope : GetScope) (getText : GetText) (fuel : Nat) :
    (∀ node : Node, node.arguments = some [] →
      booleanHandler getScope getText fuel node = .noReport) ∧
    (∀ node : Node, node.arguments = some [] →
      equalityHandler getScope getText fuel node = .noReport) ∧
    (∀ (node first : Node) (nodeArguments : List Node),
      node.arguments = some nodeArguments → nodeArguments.head? = some first →
      first.type = some "CallExpression" → first.callee.bind Node.property = none →
      booleanHandler getScope getText fuel node = .noReport) := by
  refine ⟨?_, ?_, ?_⟩
  · intro node h
    simp [booleanHandler, h]
  · intro node h
    simp [equalityHandler, h, isRegExp, RegexVerdict.strictEq]
  · intro node first nodeArguments h0 h1 h2 h3
    simp [booleanHandler, h0, h1, h2, h3]

/-- Witness for the C3 amended theorem: a zero-argument boolean assertion
call `t.true()` produces no finding. -/
theorem malformed_child_guards_witness :
    booleanHandler emptyScopes noText 0 (tAssert "true" []) = .noReport :=
  (malformed_child_guards emptyScopes noText 0).1 (tAssert "true" []) rfl

/-- The call expression `RegExp()`: a real call whose callee is the bare
identifier `RegExp` (no member access, no argument). -/
def regexpCall : Node := callNode (identNode "RegExp") []

/-- A successfully built equality fix implies the regex side carries both an
`arguments` and a `callee` property (otherwise the eager fix normalization
throws and no finding is produced). -/
theorem equalityFix_some_shape (getText : GetText) (node : Node)
    (firstArgument secondArgument : Option Node) (regexNode : Node) (assertion : String)
    (f : Finding)
    (h : equalityFix getText node firstArgument secondArgument regexNode assertion = some f) :
    regexNode.arguments ≠ none ∧ regexNode.callee ≠ none := by
  cases ha : regexNode.arguments with
  | none => rw [equalityFix, ha] at h; cases h
  | some l =>
    cases hc : regexNode.callee with
    | none => rw [equalityFix, ha, hc] at h; cases h
    | some c => exact ⟨by simp [ha], by simp [hc]⟩

/-- C1: refuted on the code.  For `t.is(RegExp(), true)` the equality
handler reports a finding with a fix, although the regex side is not a
`.test(...)`-shaped call (its callee has no object and its `arguments`
array is empty) and its traced origin is the identifier `RegExp`, not a
call expression.  And for `t.is(/x/, true)` — regex side not a call at all
— the handler does not quietly decline either: the eagerly normalized fix
reads `regex.arguments[0]` of a node without an `arguments` property, so a
TypeError escapes `context.report` and no finding is emitted. -/
theorem equality_reports_non_test_shaped_call :
    (∃ f : Finding,
      equalityHandler emptyScopes noText 2 (tAssert "is" [regexpCall, literalNode "true"]) =
        .reported f) ∧
    findRootReferenceFuel emptyScopes 2 (some regexpCall) = some (some (identNode "RegExp")) ∧
    (identNode "RegExp").type ≠ some "CallExpression" ∧
    regexpCall.callee.bind Node.object = none ∧
    regexpCall.arguments = some [] ∧
    equalityHandler emptyScopes noText 1 (tAssert "is" [regexLiteral "/x/", literalNode "true"]) =
      .thrown :=
  ⟨⟨_, rfl⟩, rfl, by decide, rfl, rfl, rfl⟩

/-- C1 amended: in an equality assertion with exactly one classified side, a
finding with a fix is emitted only if the non-regex side is a literal whose
raw text is `true` or `false` AND the regex side carries `arguments` and
`callee` properties (the syntactic call shape the fix extraction needs);
the regex side's traced origin is never required to be a call expression —
`t.is(RegExp(), true)` still reports — and when the regex side lacks the
call shape the fix normalization throws a TypeError instead of declining. -/
theorem equality_fix_requires_literal_and_call_shape (getScope : GetScope) (getText : GetText)
    (fuel : Nat) (en : String) (a b : Node) (v1 v2 : RegexVerdict) (f : Finding)
    (h1 : isRegExp getScope fuel (some a) = some v1)
    (h2 : isRegExp getScope fuel (some b) = some v2)
    (hrep : equalityHandler getScope getText fuel (tAssert en [a, b]) = .reported f) :
    ((if v2.truthy then a else b).type = some "Literal" ∧
      ((if v2.truthy then a else b).raw = some "true" ∨
        (if v2.truthy then a else b).raw = some "false")) ∧
    (if v2.truthy then b else a).arguments ≠ none ∧
    (if v2.truthy then b else a).callee ≠ none := by
  have hargs : (tAssert en [a, b]).arguments = some [a, b] := rfl
  by_cases hse : v1.strictEq v2 = true
  · simp [equalityHandler, hargs, h1, h2, hse] at hrep
  · by_cases htr2 : v2.truthy = true
    · simp only [htr2, if_true]
      by_cases hL : a.type = some "Literal"
      · by_cases hrt : a.raw = some "true"
        · simp [equalityHandler, hargs, h1, h2, hse, htr2, hL, hrt] at hrep
          cases hfix : equalityFix getText (tAssert en [a, b]) (some a) (some b) b "regex" with
          | none =>
            rw [hfix] at hrep
            cases hrep
          | some f0 =>
            exact ⟨⟨hL, Or.inl hrt⟩, equalityFix_some_shape getText (tAssert en [a, b])
              (some a) (some b) b "regex" f0 hfix⟩
        · by_cases hrf : a.raw = some "false"
          · simp [equalityHandler, hargs, h1, h2, hse, htr2, hL, hrt, hrf] at hrep
            cases hfix : equalityFix getText (tAssert en [a, b]) (some a) (some b) b "notRegex" with
            | none =>
              rw [hfix] at hrep
              cases hrep
            | some f0 =>
              exact ⟨⟨hL, Or.inr hrf⟩, equalityFix_some_shape getText (tAssert en [a, b])
                (some a) (some b) b "notRegex" f0 hfix⟩
          · simp [equalityHandler, hargs, h1, h2, hse, htr2, hL, hrt, hrf] at hrep
      · simp [equalityHandler, hargs, h1, h2, hse, htr2, hL] at hrep
    · simp only [htr2, if_false]
      by_cases hL : b.type = some "Literal"
      · by_cases hrt : b.raw = some "true"
        · simp [equalityHandler, hargs, h1, h2, hse, htr2, hL, hrt] at hrep
          cases hfix : equalityFix getText (tAssert en [a, b]) (some a) (some b) a "regex" with
          | none =>
            rw [hfix] at hrep
            cases hrep
          | some f0 =>
            exact ⟨⟨hL, Or.inl hrt⟩, equalityFix_some_shape getText (tAssert en [a, b])
              (some a) (some b) a "regex" f0 hfix⟩
        · by_cases hrf : b.raw = some "false"
          · simp [equalityHandler, hargs, h1, h2, hse, htr2, hL, hrt, hrf] at hrep
            cases hfix : equalityFix getText (tAssert en [a, b]) (some a) (some b) a "notRegex" with
            | none =>
              rw [hfix] at hrep
              cases hrep
            | some f0 =>
              exact ⟨⟨hL, Or.inr hrf⟩, equalityFix_some_shape getText (tAssert en [a, b])
                (some a) (some b) a "notRegex" f0 hfix⟩
          · simp [equalityHandler, hargs, h1, h2, hse, htr2, hL, hrt, hrf] at hrep
      · simp [equalityHandler, hargs, h1, h2, hse, htr2, hL] at hrep

/-- Witness for the C1 amended theorem: instantiated at `t.is(RegExp(), true)`,
whose reported matchee is the boolean literal and whose regex side carries
the call shape. -/
theorem equality_fix_requires_literal_and_call_shape_witness :
    ((literalNode "true").type = some "Literal" ∧
      ((literalNode "true").raw = some "true" ∨ (literalNode "true").raw = some "false")) ∧
    regexpCall.arguments ≠ none ∧ regexpCall.callee ≠ none :=
  equality_fix_requires_literal_and_call_shape emptyScopes noText 2 "is"
    regexpCall (literalNode "true") (.ofBool true) (.ofBool false)
    { message := "Prefer using the `t.regex()` assertion."
      fix :=
        [ (some (identNode "is"), "regex")
        , (some regexpCall, noText none)
        , (some (literalNode "true"), noText none) ] }
    rfl rfl rfl

/-- C7: an equality assertion whose two arguments classify alike (both as
regex, or neither) yields no finding.  The well-formedness hypothesis `hwa`
records the espree invariant that a node whose raw text is `true` or `false`
is a boolean literal, carrying neither regex-literal syntax nor a name. -/
theorem equality_same_classification_no_finding (getScope : GetScope) (getText : GetText)
    (fuel : Nat) (a b : Node) (en : String) (v1 v2 : RegexVerdict)
    (h1 : isRegExp getScope fuel (some a) = some v1)
    (h2 : isRegExp getScope fuel (some b) = some v2)
    (heq : v1.truthy = v2.truthy)
    (hwa : a.raw = some "true" ∨ a.raw = some "false" → a.regex = false ∧ a.name = none) :
    equalityHandler getScope getText fuel (tAssert en [a, b]) = .noReport := by
  by_cases hse : v1.strictEq v2 = true
  · simp [equalityHandler, tAssert, callNode, memberNode, identNode, Node.arguments,
      h1, h2, hse]
  · by_cases htr2 : v2.truthy = true
    · have htr1 : v1.truthy = true := heq.trans htr2
      by_cases hL : a.type = some "Literal"
      · by_cases hrt : a.raw = some "true"
        · exfalso
          obtain ⟨hreg, hname⟩ := hwa (Or.inl hrt)
          have := literal_classifies_ofBool_false getScope fuel a v1 hL hreg hname h1
          rw [this] at htr1
          simp [RegexVerdict.truthy] at htr1
        · by_cases hrf : a.raw = some "false"
          · exfalso
            obtain ⟨hreg, hname⟩ := hwa (Or.inr hrf)
            have := literal_classifies_ofBool_false getScope fuel a v1 hL hreg hname h1
            rw [this] at htr1
            simp [RegexVerdict.truthy] at htr1
          · simp [equalityHandler, tAssert, callNode, memberNode, identNode, Node.arguments,
              h1, h2, hse, htr2, hL, hrt, hrf]
      · simp [equalityHandler, tAssert, callNode, memberNode, identNode, Node.arguments,
          h1, h2, hse, htr2, hL]
    · exfalso
      have hf2 : v2 = .ofBool false := RegexVerdict.eq_ofBool_false v2 (by simpa using htr2)
      have hf1 : v1 = .ofBool false :=
        RegexVerdict.eq_ofBool_false v1 (by rw [heq]; simpa using htr2)
      rw [hf1, hf2] at hse
      simp [RegexVerdict.strictEq] at hse

/-- Witness for the C7 theorem: `t.is(/a/, /b/)`, two distinct regex
literals, yields no finding. -/
theorem equality_same_classification_no_finding_witness :
    equalityHandler emptyScopes noText 0 (tAssert "is" [regexLiteral "/a/", regexLiteral "/b/"]) =
      .noReport :=
  equality_same_classification_no_finding emptyScopes noText 0
    (regexLiteral "/a/") (regexLiteral "/b/") "is" (.ofBool true) (.ofBool true)
    rfl rfl rfl (by decide)

end PreferTRegex
